import Mathlib

/-!
Verification of the BCI-station message broker (control center) against its
natural-language specification.  The definitions below are shallow embeddings
of the Python source files:

* `Control center/client_base.py` — frame codec (`send_message` / `receive_message`)
* `Routine Center/nicegui-app.py`  — broker: auth, handshake, clock sync, router
* `Control center/app.py`          — older broker variant (clock sync differences)
* `HID side/sync/routine_center/client_base.py` — `MyBag`, `MailMan`, `MailMan_Deprecated`
* `HID side/keyboard hiker.py`     — reference expiry workload

Bytes are modelled as `Nat` (values 0..255), wall-clock times as `ℚ`.
-/

namespace BCIStation

/-! ### Byte-level helpers

`int.to_bytes(8, 'big')` and `int.from_bytes(_, 'big')` from the Python source.
`toBytesBE w n` produces the `w`-byte big-endian encoding of `n` (Python raises
`OverflowError` when `n ≥ 256^w`; the model truncates, and theorems that need
exactness carry the `n < 256^w` bound).
-/

def toBytesBE : Nat → Nat → List Nat
  | 0, _ => []
  | w + 1, n => toBytesBE w (n / 256) ++ [n % 256]

def fromBytesBE (bs : List Nat) : Nat :=
  bs.foldl (fun a b => a * 256 + b) 0

theorem fromBytesBE_append (xs ys : List Nat) :
    fromBytesBE (xs ++ ys) = ys.foldl (fun a b => a * 256 + b) (fromBytesBE xs) := by
  simp [fromBytesBE, List.foldl_append]

theorem toBytesBE_length (w n : Nat) : (toBytesBE w n).length = w := by
  induction w generalizing n with
  | zero => rfl
  | succ w ih => simp [toBytesBE, ih]

theorem fromBytesBE_toBytesBE (w n : Nat) :
    fromBytesBE (toBytesBE w n) = n % 256 ^ w := by
  induction w generalizing n with
  | zero => simp [toBytesBE, fromBytesBE, Nat.mod_one]
  | succ w ih =>
    rw [toBytesBE, fromBytesBE_append, ih]
    show n / 256 % 256 ^ w * 256 + n % 256 = n % 256 ^ (w + 1)
    have h : 256 ^ (w + 1) = 256 * 256 ^ w := by ring
    rw [h, Nat.mod_mul]
    ring

theorem fromBytesBE_toBytesBE_of_lt {w n : Nat} (h : n < 256 ^ w) :
    fromBytesBE (toBytesBE w n) = n := by
  rw [fromBytesBE_toBytesBE, Nat.mod_eq_of_lt h]

/-! ### Frame codec (C7)

`SocketClientBase.send_message` (Control center/client_base.py, lines 58–66)
prepends the 8-byte big-endian length of the payload.
`SocketClientBase.receive_message` (lines 68–99) reads 8 length bytes (returning
`None` if the stream is exhausted), then reads up to that many payload bytes
(`if not chunk: break` on a short stream), and returns `None` when the payload
read is empty — including the case of a length-0 frame.
-/

def encode (payload : List Nat) : List Nat :=
  toBytesBE 8 payload.length ++ payload

def decode (stream : List Nat) : Option (List Nat) :=
  let header := stream.take 8
  if header = [] then
    none
  else
    let L := fromBytesBE header
    let body := (stream.drop 8).take L
    if body = [] then none else some body

theorem decode_encode {payload : List Nat}
    (hlen : payload.length < 256 ^ 8) (hne : payload ≠ []) :
    decode (encode payload) = some payload := by
  have hlen8 : (toBytesBE 8 payload.length).length = 8 := toBytesBE_length 8 _
  have htake : (encode payload).take 8 = toBytesBE 8 payload.length := by
    rw [encode, List.take_append_of_le_length (le_of_eq hlen8.symm)]
    simp [hlen8]
  have hdrop : (encode payload).drop 8 = payload := by
    rw [encode, List.drop_append_of_le_length (le_of_eq hlen8.symm)]
    simp [hlen8]
  have hheader : toBytesBE 8 payload.length ≠ [] := by
    intro h
    have := toBytesBE_length 8 payload.length
    rw [h] at this
    simp at this
  rw [decode]
  simp only [htake, hdrop, if_neg hheader, fromBytesBE_toBytesBE_of_lt hlen,
    List.take_length, if_neg hne]

/-! ### Clock synchronizer (C2)

An echo sample records `t1` (broker send time), `t2` (client local time) and
`t3` (broker receive time); `Routine Center/nicegui-app.py` stores them in
`IncomingClient.echo_data`.
-/

structure EchoSample where
  t1 : ℚ
  t2 : ℚ
  t3 : ℚ
deriving DecidableEq, Repr

def EchoSample.delay (s : EchoSample) : ℚ := s.t3 - s.t1

structure ConnectionQuality where
  netDelay : ℚ
  netRemoteTime : ℚ
  netLocalTime : ℚ
deriving DecidableEq, Repr

/-- `df.sort_values(by='delay', ascending=True)` followed by `df.iloc[0]`:
the selected row is a row of minimal delay.  The model keeps the first
minimal-delay row. -/
def minDelaySample (s : EchoSample) : List EchoSample → EchoSample
  | [] => s
  | x :: rest => minDelaySample (if x.delay < s.delay then x else s) rest

/-- `IncomingClient.estimate_connection_quality`
(Routine Center/nicegui-app.py, lines 89–103): from the minimal-delay row,
`netDelay = delay`, `netRemoteTime = tClient + delay/2 = t2 + delay/2`,
`netLocalTime = tServer = (t3 + t1)/2`.  An empty sample table makes pandas
raise (`KeyError` on the missing columns), modelled as `none`. -/
def estimate_connection_quality (echo_data : List EchoSample) :
    Option ConnectionQuality :=
  match echo_data with
  | [] => none
  | s :: rest =>
    let best := minDelaySample s rest
    some
      { netDelay := best.delay
        netRemoteTime := best.t2 + best.delay / 2
        netLocalTime := (best.t3 + best.t1) / 2 }

/-- `ControlCenter.send_echo_packages` (Control center/app.py, lines 195–207):
same minimal-delay selection, but `netRemoteTime = tClient = t2` with no
half-delay adjustment. -/
def send_echo_packages_quality (echo_data : List EchoSample) :
    Option ConnectionQuality :=
  match echo_data with
  | [] => none
  | s :: rest =>
    let best := minDelaySample s rest
    some
      { netDelay := best.delay
        netRemoteTime := best.t2
        netLocalTime := (best.t3 + best.t1) / 2 }

theorem minDelaySample_mem (s : EchoSample) (rest : List EchoSample) :
    minDelaySample s rest ∈ s :: rest := by
  induction rest generalizing s with
  | nil => simp [minDelaySample]
  | cons x rest ih =>
    rw [minDelaySample]
    have h := ih (if x.delay < s.delay then x else s)
    rcases List.mem_cons.mp h with h | h
    · rw [h]
      by_cases hx : x.delay < s.delay
      · simp [hx]
      · simp [hx]
    · exact List.mem_cons.mpr (Or.inr (List.mem_cons.mpr (Or.inr h)))

theorem minDelaySample_le_head (s : EchoSample) (rest : List EchoSample) :
    (minDelaySample s rest).delay ≤ s.delay := by
  induction rest generalizing s with
  | nil => simp [minDelaySample]
  | cons x rest ih =>
    rw [minDelaySample]
    by_cases hx : x.delay < s.delay
    · rw [if_pos hx]
      exact le_trans (ih x) (le_of_lt hx)
    · rw [if_neg hx]
      exact ih s

theorem minDelaySample_le (s : EchoSample) (rest : List EchoSample) :
    ∀ x ∈ s :: rest, (minDelaySample s rest).delay ≤ x.delay := by
  induction rest generalizing s with
  | nil =>
    intro x hx
    rcases List.mem_cons.mp hx with h | h
    · rw [h]
      simp [minDelaySample]
    · cases h
  | cons y rest ih =>
    intro x hx
    rw [minDelaySample]
    rcases List.mem_cons.mp hx with h | h
    · have hhead : (if y.delay < s.delay then y else s).delay ≤ s.delay := by
        by_cases hy : y.delay < s.delay
        · rw [if_pos hy]
          exact le_of_lt hy
        · rw [if_neg hy]
      rw [h]
      exact le_trans (minDelaySample_le_head _ rest) hhead
    · rcases List.mem_cons.mp h with h2 | h2
      · have hhead : (if y.delay < s.delay then y else s).delay ≤ y.delay := by
          by_cases hy : y.delay < s.delay
          · rw [if_pos hy]
          · rw [if_neg hy]
            exact le_of_not_lt hy
        rw [h2]
        exact le_trans (minDelaySample_le_head _ rest) hhead
      · exact ih _ x (List.mem_cons.mpr (Or.inr h2))

/-! ### Handshake and authentication (C6, C8)

`ControlCenter.handle_client` (Routine Center/nicegui-app.py, lines 144–214;
the older Control center/app.py, lines 48–149, has the same auth and identity
logic).  The model covers the handshake phase: the 8-byte key check, the
length-prefixed identity frame, the comma split, the echo exchange (whose
probe messages are time-dependent and passed in as `probeMsgs`) and the
registration of the session.
-/

def strToBytes (s : String) : List Nat := s.toList.map Char.toNat

def bytesToStr (bs : List Nat) : String := String.mk (bs.map Char.ofNat)

def splitCharAux (sep : Char) : List Char → List Char → List (List Char)
  | [], acc => [acc.reverse]
  | c :: rest, acc =>
    if c = sep then acc.reverse :: splitCharAux sep rest []
    else splitCharAux sep rest (c :: acc)

/-- Python's `str.split(sep)` for a one-character separator: the pieces
between occurrences of `sep`, so `"".split(',') = [""]` and
`"a,b,c".split(',') = ["a", "b", "c"]`. -/
def splitChar (sep : Char) (s : String) : List String :=
  (splitCharAux sep s.toList []).map String.mk

/-- `valid_key = b'12345678'` (ASCII bytes). -/
def valid_key : List Nat := [49, 50, 51, 52, 53, 54, 55, 56]

/-- Observable outcome of the handshake phase of `handle_client`:
the string frames written back to the socket, the `(path, uid)` session added
to `incoming_clients` (if any), whether the socket was explicitly closed
during the handshake, and the uncaught Python exception (if any). -/
structure HandleOutcome where
  sent : List String
  session : Option (String × String)
  closed : Bool
  err : Option String
deriving DecidableEq, Repr

def handle_client (validKey : List Nat) (input : List Nat)
    (echoSamples : List EchoSample) (probeMsgs : List String) : HandleOutcome :=
  -- key_code = client_socket.recv(8); mismatch: close and return.
  let key_code := input.take 8
  if key_code ≠ validKey then ⟨[], none, true, none⟩
  else
    let afterKey := input.drop 8
    -- message_length = client_socket.recv(8); empty: return.
    let header := afterKey.take 8
    if header = [] then ⟨[], none, false, none⟩
    else
      let L := fromBytesBE header
      let body := (afterKey.drop 8).take L
      -- chunk loop: `if not chunk: return` on a truncated stream.
      if body.length < L then ⟨[], none, false, none⟩
      -- assert message, "Empty message is not allowed."
      else if body = [] then ⟨[], none, false, some "AssertionError"⟩
      else
        let message := bytesToStr body
        let client_info := splitChar ',' message
        match client_info with
        | [] => ⟨[], none, false, some "IndexError"⟩
        | [_] => ⟨[], none, false, some "IndexError"⟩
        | client_path :: client_uid :: _ =>
          -- exchange_echo_packages sends the probes, then
          -- estimate_connection_quality raises on an empty sample table.
          match estimate_connection_quality echoSamples with
          | none => ⟨probeMsgs, none, false, some "KeyError"⟩
          | some _ =>
            ⟨probeMsgs ++ ["YouAreGoodToGo"], some (client_path, client_uid),
              false, none⟩

theorem bytesToStr_strToBytes (s : String) : bytesToStr (strToBytes s) = s := by
  simp only [bytesToStr, strToBytes, List.map_map]
  have h : (Char.ofNat ∘ Char.toNat) = id := by
    funext c
    exact Char.ofNat_toNat c
  rw [h, List.map_id]
  cases s
  rfl

theorem strToBytes_eq_nil_iff (s : String) : strToBytes s = [] ↔ s = "" := by
  constructor
  · intro h
    simp only [strToBytes, List.map_eq_nil_iff] at h
    cases s with
    | mk data =>
      simp only [String.toList] at h
      rw [h]
  · intro h
    rw [h]
    rfl

/-- A wire image of a client handshake: the valid key, then the identity
message framed with its 8-byte big-endian length. -/
def mkHandshakeInput (msg : String) : List Nat :=
  valid_key ++ toBytesBE 8 (strToBytes msg).length ++ strToBytes msg

/-- Full evaluation of the handshake on a well-framed identity message sent
with the valid key. -/
theorem handle_client_mkHandshakeInput (msg : String)
    (samples : List EchoSample) (probes : List String)
    (hlen : (strToBytes msg).length < 256 ^ 8) :
    handle_client valid_key (mkHandshakeInput msg) samples probes =
      if msg = "" then ⟨[], none, false, some "AssertionError"⟩
      else
        match splitChar ',' msg with
        | [] => ⟨[], none, false, some "IndexError"⟩
        | [_] => ⟨[], none, false, some "IndexError"⟩
        | client_path :: client_uid :: _ =>
          match estimate_connection_quality samples with
          | none => ⟨probes, none, false, some "KeyError"⟩
          | some _ =>
            ⟨probes ++ ["YouAreGoodToGo"], some (client_path, client_uid),
              false, none⟩ := by
  have hkeylen : valid_key.length = 8 := by rfl
  have hhdrlen : (toBytesBE 8 (strToBytes msg).length).length = 8 :=
    toBytesBE_length 8 _
  have htake : (mkHandshakeInput msg).take 8 = valid_key := by
    rw [mkHandshakeInput, List.append_assoc]
    exact List.take_left' hkeylen
  have hdrop : (mkHandshakeInput msg).drop 8 =
      toBytesBE 8 (strToBytes msg).length ++ strToBytes msg := by
    rw [mkHandshakeInput, List.append_assoc]
    exact List.drop_left' hkeylen
  have hheader : (toBytesBE 8 (strToBytes msg).length ++ strToBytes msg).take 8 =
      toBytesBE 8 (strToBytes msg).length := List.take_left' hhdrlen
  have hbody : (toBytesBE 8 (strToBytes msg).length ++ strToBytes msg).drop 8 =
      strToBytes msg := List.drop_left' hhdrlen
  have hheader_ne : toBytesBE 8 (strToBytes msg).length ≠ [] := by
    intro h
    have := toBytesBE_length 8 (strToBytes msg).length
    rw [h] at this
    simp at this
  simp only [handle_client, htake, hdrop, hheader, hbody, ne_eq,
    eq_self_iff_true, not_true_eq_false, if_false,
    if_neg hheader_ne, fromBytesBE_toBytesBE_of_lt hlen, List.take_length,
    lt_self_iff_false, bytesToStr_strToBytes]
  by_cases hmsg : msg = ""
  · rw [if_pos ((strToBytes_eq_nil_iff msg).mpr hmsg), if_pos hmsg]
  · rw [if_neg (fun h => hmsg ((strToBytes_eq_nil_iff msg).mp h)), if_neg hmsg]

/-! ### Letter router (C1, C5)

`ControlCenter.handle_message`, JSON branch
(Routine Center/nicegui-app.py, lines 287–320).  The incoming JSON letter's
`_stations` field is a Python list object; `raw_letter.copy()` is a shallow
`dict.copy`, so all per-destination copies share the very same `_stations`
list.  The model makes this sharing explicit with a store of station lists
indexed by reference (`stationsRef`).
-/

inductive ClientStatus
  | Initialized
  | Connecting
  | Connected
  | Disconnected
deriving DecidableEq, Repr

structure IncomingClient where
  address : String
  path : String
  uid : String
  status : ClientStatus
  netDelay : ℚ
  netRemoteTime : ℚ
  netLocalTime : ℚ
deriving DecidableEq, Repr

/-- `urlparse(dst)` restricted to the `"path?uid"` destination strings the
system uses: the fragment (after the first `#`) is cut off, the path is the
part before the first `?` and the query is everything after it. -/
def parseDst (dst : String) : String × String :=
  let noFrag := (splitChar '#' dst).headD dst
  match splitChar '?' noFrag with
  | [] => (noFrag, "")
  | [p] => (p, "")
  | p :: rest => (p, String.intercalate "?" rest)

abbrev Station := String × ℚ

/-- The heap of `_stations` list objects; a letter holds a reference into it. -/
abbrev StationStore := List (List Station)

/-- `raw_letter['_stations'].append(...)`: in-place extension of the shared
list object. -/
def StationStore.appendAt (store : StationStore) (ref : Nat) (st : Station) :
    StationStore :=
  store.set ref ((store.getD ref []) ++ [st])

/-- A routed letter as parsed from the incoming JSON message. -/
structure RoutedLetter where
  uid : String
  src : String
  dst : String
  content : String
  timestamp : ℚ
  stationsRef : Nat
deriving DecidableEq, Repr

/-- One frame actually written to a destination socket:
`json.dumps(letter)` materializes the shared `_stations` list at send time. -/
structure Delivered where
  address : String
  uid : String
  src : String
  dst : String
  content : String
  timestamp : ℚ
  stations : List Station
deriving DecidableEq, Repr

/-- Timestamp translation: src time → broker-local time → destination time. -/
def translateTimestamp (t : ℚ) (sic dic : IncomingClient) : ℚ :=
  t - sic.netRemoteTime + sic.netLocalTime - dic.netLocalTime + dic.netRemoteTime

def deliverTo (store : StationStore) (letter : RoutedLetter)
    (sic dic : IncomingClient) : Delivered :=
  { address := dic.address
    uid := letter.uid
    src := letter.src
    dst := letter.dst
    content := letter.content
    timestamp := translateTimestamp letter.timestamp sic dic
    stations := store.getD letter.stationsRef [] }

/-- The `for _, v in self.incoming_clients.items()` loop with its two guards
(`continue` on a non-Connected client; deliver when the path matches and the
uid matches or the filter is empty). -/
def route_loop (store : StationStore) (sic : IncomingClient)
    (letter : RoutedLetter) (path uidFilter : String) :
    List IncomingClient → List Delivered
  | [] => []
  | dic :: rest =>
    if dic.status ≠ ClientStatus.Connected then
      route_loop store sic letter path uidFilter rest
    else if dic.path = path ∧ (dic.uid = uidFilter ∨ uidFilter.length = 0) then
      deliverTo store letter sic dic :: route_loop store sic letter path uidFilter rest
    else
      route_loop store sic letter path uidFilter rest

/-- The JSON branch of `ControlCenter.handle_message`: parse `dst`, append the
`('ControlCenter', now)` station to the (shared) `_stations` list of the parsed
letter, then send a shallow copy with a translated timestamp to every matching
Connected client.  Zero matches only log a warning. -/
def handle_json_message (store : StationStore) (clients : List IncomingClient)
    (sic : IncomingClient) (letter : RoutedLetter) (now : ℚ) :
    StationStore × List Delivered :=
  let parsed := parseDst letter.dst
  let store2 := StationStore.appendAt store letter.stationsRef ("ControlCenter", now)
  (store2, route_loop store2 sic letter parsed.1 parsed.2 clients)

theorem string_length_eq_zero {s : String} : s.length = 0 ↔ s = "" := by
  cases s with
  | mk data =>
    constructor
    · intro h
      have hd : data = [] := List.length_eq_zero.mp h
      rw [hd]
    · intro h
      have hd : data = [] := congrArg String.data h
      simp [String.length, hd]

/-- The delivery loop is exactly a filter of the client list by the
Connected/path/uid predicate. -/
theorem route_loop_eq_filter (store : StationStore) (sic : IncomingClient)
    (letter : RoutedLetter) (path uidFilter : String)
    (clients : List IncomingClient) :
    route_loop store sic letter path uidFilter clients =
      (clients.filter fun dic =>
        decide (dic.status = ClientStatus.Connected ∧ dic.path = path ∧
          (dic.uid = uidFilter ∨ uidFilter = ""))).map
        (deliverTo store letter sic) := by
  induction clients with
  | nil => rfl
  | cons dic rest ih =>
    rw [route_loop, List.filter_cons]
    by_cases hstat : dic.status = ClientStatus.Connected
    · rw [if_neg (by simp [hstat])]
      by_cases hmatch : dic.path = path ∧ (dic.uid = uidFilter ∨ uidFilter.length = 0)
      · rw [if_pos hmatch]
        have : decide (dic.status = ClientStatus.Connected ∧ dic.path = path ∧
            (dic.uid = uidFilter ∨ uidFilter = "")) = true := by
          simp only [decide_eq_true_eq]
          refine ⟨hstat, hmatch.1, ?_⟩
          rcases hmatch.2 with h | h
          · exact Or.inl h
          · exact Or.inr (string_length_eq_zero.mp h)
        rw [this, if_pos rfl]
        rw [List.map_cons, ih]
      · rw [if_neg hmatch]
        have : decide (dic.status = ClientStatus.Connected ∧ dic.path = path ∧
            (dic.uid = uidFilter ∨ uidFilter = "")) = false := by
          simp only [decide_eq_false_iff_not]
          intro h
          refine hmatch ⟨h.2.1, ?_⟩
          rcases h.2.2 with h2 | h2
          · exact Or.inl h2
          · exact Or.inr (by rw [h2]; rfl)
        rw [this]
        simp only [Bool.false_eq_true, if_false]
        exact ih
    · rw [if_pos (by simp [hstat])]
      have : decide (dic.status = ClientStatus.Connected ∧ dic.path = path ∧
          (dic.uid = uidFilter ∨ uidFilter = "")) = false := by
        simp only [decide_eq_false_iff_not]
        intro h
        exact hstat h.1
      rw [this]
      simp only [Bool.false_eq_true, if_false]
      exact ih

theorem StationStore.appendAt_getD (store : StationStore) (ref : Nat)
    (st : Station) (href : ref < store.length) :
    (StationStore.appendAt store ref st).getD ref [] =
      store.getD ref [] ++ [st] := by
  simp only [StationStore.appendAt, List.getD, List.get?_eq_getElem?]
  rw [List.getElem?_set_eq_of_lt _ href]
  rfl

theorem StationStore.appendAt_getD_ne (store : StationStore) (ref r : Nat)
    (st : Station) (hr : r ≠ ref) :
    (StationStore.appendAt store ref st).getD r [] = store.getD r [] := by
  simp only [StationStore.appendAt, List.getD, List.get?_eq_getElem?]
  rw [List.getElem?_set_ne (Ne.symm hr)]

/-! ### Association-list model of Python dicts

Python dict keys are unique; the bags are dicts from letter `uid` to either a
letter or a list of letters.  Assoc lists with in-place update model insertion
order and key-directed operations.
-/

def alookup {α : Type} : List (String × α) → String → Option α
  | [], _ => none
  | (k, v) :: rest, key => if k = key then some v else alookup rest key

/-- `dict.pop(key)`'s removal effect. -/
def aerase {α : Type} : List (String × α) → String → List (String × α)
  | [], _ => []
  | (k, v) :: rest, key =>
    if k = key then aerase rest key else (k, v) :: aerase rest key

/-- Overwrite the value stored under an existing key, keeping its position. -/
def aset {α : Type} : List (String × α) → String → α → List (String × α)
  | [], _, _ => []
  | (k, v) :: rest, key, a =>
    if k = key then (k, a) :: rest else (k, v) :: aset rest key a

/-- `d[key] = a`: overwrite when present, append when new. -/
def asetOrAdd {α : Type} (m : List (String × α)) (key : String) (a : α) :
    List (String × α) :=
  if (alookup m key).isSome then aset m key a else m ++ [(key, a)]

theorem alookup_aerase_self {α : Type} (m : List (String × α)) (key : String) :
    alookup (aerase m key) key = none := by
  induction m with
  | nil => rfl
  | cons kv rest ih =>
    cases kv with
    | mk k v =>
      rw [aerase]
      by_cases hk : k = key
      · rw [if_pos hk]
        exact ih
      · rw [if_neg hk, alookup, if_neg hk]
        exact ih

theorem alookup_none_aerase {α : Type} (m : List (String × α)) (key : String)
    (h : alookup m key = none) : aerase m key = m := by
  induction m with
  | nil => rfl
  | cons kv rest ih =>
    cases kv with
    | mk k v =>
      rw [alookup] at h
      by_cases hk : k = key
      · rw [if_pos hk] at h
        cases h
      · rw [if_neg hk] at h
        rw [aerase, if_neg hk, ih h]

theorem alookup_aerase_ne {α : Type} (m : List (String × α)) (key k : String)
    (h : k ≠ key) : alookup (aerase m key) k = alookup m k := by
  induction m with
  | nil => rfl
  | cons kv rest ih =>
    cases kv with
    | mk k0 v =>
      rw [aerase, alookup]
      by_cases hk0 : k0 = key
      · rw [if_pos hk0]
        have hne : ¬k0 = k := fun he => h (by rw [← he, hk0])
        rw [if_neg hne]
        exact ih
      · rw [if_neg hk0, alookup]
        by_cases he : k0 = k
        · rw [if_pos he, if_pos he]
        · rw [if_neg he, if_neg he]
          exact ih

theorem alookup_aset_self {α : Type} (m : List (String × α)) (key : String)
    (a b : α) (h : alookup m key = some b) :
    alookup (aset m key a) key = some a := by
  induction m with
  | nil => cases h
  | cons kv rest ih =>
    cases kv with
    | mk k v =>
      rw [alookup] at h
      rw [aset]
      by_cases hk : k = key
      · rw [if_pos hk, alookup, if_pos hk]
      · rw [if_neg hk] at h
        rw [if_neg hk, alookup, if_neg hk]
        exact ih h

theorem alookup_aset_ne {α : Type} (m : List (String × α)) (key k : String)
    (a : α) (h : k ≠ key) : alookup (aset m key a) k = alookup m k := by
  induction m with
  | nil => rfl
  | cons kv rest ih =>
    cases kv with
    | mk k0 v =>
      rw [aset]
      by_cases hk0 : k0 = key
      · have hne : ¬k0 = k := fun he => h (by rw [← he, hk0])
        rw [if_pos hk0, alookup, alookup, if_neg hne, if_neg hne]
      · rw [if_neg hk0, alookup, alookup]
        by_cases he : k0 = k
        · rw [if_pos he, if_pos he]
        · rw [if_neg he, if_neg he]
          exact ih

theorem alookup_append_single_self {α : Type} (m : List (String × α))
    (key : String) (a : α) (h : alookup m key = none) :
    alookup (m ++ [(key, a)]) key = some a := by
  induction m with
  | nil => simp [alookup]
  | cons kv rest ih =>
    cases kv with
    | mk k v =>
      rw [alookup] at h
      by_cases hk : k = key
      · rw [if_pos hk] at h
        cases h
      · rw [if_neg hk] at h
        rw [List.cons_append, alookup, if_neg hk]
        exact ih h

theorem alookup_append_single_ne {α : Type} (m : List (String × α))
    (key k : String) (a : α) (h : k ≠ key) :
    alookup (m ++ [(key, a)]) k = alookup m k := by
  induction m with
  | nil =>
    simp only [List.nil_append, alookup]
    rw [if_neg (fun he : key = k => h he.symm)]
  | cons kv rest ih =>
    cases kv with
    | mk k0 v =>
      rw [List.cons_append, alookup, alookup]
      by_cases he : k0 = k
      · rw [if_pos he, if_pos he]
      · rw [if_neg he, if_neg he]
        exact ih

theorem alookup_asetOrAdd_self {α : Type} (m : List (String × α))
    (key : String) (a : α) : alookup (asetOrAdd m key a) key = some a := by
  rw [asetOrAdd]
  cases hm : alookup m key with
  | some b =>
    rw [if_pos (by simp [hm])]
    exact alookup_aset_self m key a b hm
  | none =>
    rw [if_neg (by simp [hm])]
    exact alookup_append_single_self m key a hm

theorem alookup_asetOrAdd_ne {α : Type} (m : List (String × α))
    (key k : String) (a : α) (h : k ≠ key) :
    alookup (asetOrAdd m key a) k = alookup m k := by
  rw [asetOrAdd]
  by_cases hm : (alookup m key).isSome
  · rw [if_pos hm]
    exact alookup_aset_ne m key k a h
  · rw [if_neg hm]
    exact alookup_append_single_ne m key k a h

/-! ### `MyBag` — the letter bag (C3, C9)

`HID side/sync/routine_center/client_base.py`, class `MyBag` (lines 11–64).
A bag maps a letter `uid` to either a single letter dict or, after a uid
collision, a list of letters.  All operations run under the bag's re-entrant
lock, so concurrent calls serialize.
-/

structure Letter where
  uid : String
  src : String
  dst : String
  content : String
  timestamp : ℚ
  stations : List Station
deriving DecidableEq, Repr

/-- A bag slot: a plain letter dict, or the list created on uid collision. -/
inductive Slot
  | single (l : Letter)
  | multi (ls : List Letter)
deriving DecidableEq, Repr

abbrev MyBag := List (String × Slot)

/-- `MyBag.insert_letter` (lines 30–51): on an existing uid, append to the
list slot or turn the dict slot into a two-element list; on a fresh uid,
store the letter directly.  (`letter.copy()` gives the bag its own value.) -/
def MyBag.insert_letter (bag : MyBag) (letter : Letter) : MyBag :=
  match alookup bag letter.uid with
  | some (Slot.multi ls) => aset bag letter.uid (Slot.multi (ls ++ [letter]))
  | some (Slot.single l) => aset bag letter.uid (Slot.multi [l, letter])
  | none => bag ++ [(letter.uid, Slot.single letter)]

/-- `MyBag.fetch_letter` (lines 53–64): pop and return the slot when the uid
is present; fall through (returning Python's implicit `None`) otherwise. -/
def MyBag.fetch_letter (bag : MyBag) (uid : String) : Option Slot × MyBag :=
  match alookup bag uid with
  | some slot => (some slot, aerase bag uid)
  | none => (none, bag)

/-! ### `MailMan` (C10)

Same file, class `MailMan` (lines 67–146). -/

structure MailManState where
  session_name : String
  letter_idx : Nat
  bag_finished : MyBag
  bag_pending : MyBag
  bag_failed : MyBag
  bag_history : MyBag
deriving Repr

/-- `MailMan.mk_letter` (lines 101–132).  `if not timestamp:` replaces a
falsy timestamp — `None` or `0.0` — with `time.time()` (`now`). -/
def MailMan.mk_letter (st : MailManState) (src dst content : String)
    (timestamp : Option ℚ) (now : ℚ) : MailManState × Letter :=
  let ts : ℚ :=
    match timestamp with
    | none => now
    | some t => if t = 0 then now else t
  let uid := st.session_name ++ "-" ++ toString st.letter_idx
  let letter : Letter :=
    { uid := uid, src := src, dst := dst, content := content,
      timestamp := ts, stations := [("origin", now)] }
  ({ st with
      letter_idx := st.letter_idx + 1,
      bag_history := MyBag.insert_letter st.bag_history letter },
    letter)

/-! ### `MailMan_Deprecated` and the expiry pipeline (C4)

Same file, class `MailMan_Deprecated` (lines 149–272), and the reference
workload `HID side/keyboard hiker.py`, whose `mark_as_expired` (lines 184–188)
sleeps 3 seconds and then calls `mm.mark_expired_letter_with_uid(uid)`.
The bags of `MailMan_Deprecated` are plain Python dicts from uid to letter.
-/

structure MailManDeprecatedState where
  bag_await_response : List (String × Letter)
  bag_finished : List (String × Letter)
  bag_expired : List (String × Letter)
  bag_pending : List (String × Letter)
deriving DecidableEq, Repr

/-- `retrieve_letter_in_waiting` (lines 192–205): pop from
`bag_await_response` when present, else `None`. -/
def MailManDeprecated.retrieve_letter_in_waiting
    (st : MailManDeprecatedState) (uid : String) :
    Option Letter × MailManDeprecatedState :=
  match alookup st.bag_await_response uid with
  | some letter =>
    (some letter, { st with bag_await_response := aerase st.bag_await_response uid })
  | none => (none, st)

/-- `archive_await_letter` (lines 207–216): `bag_await_response[uid] = letter`. -/
def MailManDeprecated.archive_await_letter
    (st : MailManDeprecatedState) (letter : Letter) : MailManDeprecatedState :=
  { st with bag_await_response := asetOrAdd st.bag_await_response letter.uid letter }

/-- `mark_expired_letter_with_uid` (lines 229–243): atomically retrieve from
the awaiting bag and, on success, file the letter under `bag_expired`. -/
def MailManDeprecated.mark_expired_letter_with_uid
    (st : MailManDeprecatedState) (uid : String) :
    Option Letter × MailManDeprecatedState :=
  let r := MailManDeprecated.retrieve_letter_in_waiting st uid
  match r.1 with
  | some letter =>
    (some letter, { r.2 with bag_expired := asetOrAdd r.2.bag_expired uid letter })
  | none => (none, r.2)

/-- The attribute names defined by `class MailMan`
(client_base.py, lines 67–146): Python attribute lookup on a `MailMan`
instance succeeds exactly for these names. -/
def MailMan.attributeNames : List String :=
  ["bag_finished", "bag_pending", "bag_failed", "bag_history", "bags",
   "session_name", "letter_idx", "__init__", "mk_letter", "pass_letter"]

/-- The attribute names defined by `class MailMan_Deprecated` (lines 149–272). -/
def MailManDeprecated.attributeNames : List String :=
  ["bag_await_response", "bag_finished", "bag_expired", "bag_pending",
   "session_name", "letter_idx", "bag_lock", "__init__", "lock_bag",
   "insert_pending_letter", "remove_pending_letter",
   "retrieve_letter_in_waiting", "archive_await_letter",
   "archive_finished_letter", "mark_expired_letter_with_uid",
   "mk_letter", "recv_letter"]

/-- The method names `keyboard hiker.py` invokes on its `mm = MailMan(...)`
object in the expiry pipeline: `archive_await_letter` in
`KeyboardHiker.callback` (line 181) and `mark_expired_letter_with_uid` in
`mark_as_expired` (line 186). -/
def keyboardHikerExpiryCalls : List String :=
  ["archive_await_letter", "mark_expired_letter_with_uid"]

/-! ## Claim theorems -/

/-! ### C7 — frame codec round trip (corrected) -/

/-- C7 counterexample: for the empty payload the claim fails.  `encode []` is
the 8-byte zero length prefix; `receive_message` reads length 0, the body loop
leaves `message = b""`, and `if not message: return None` yields `None`
instead of the empty payload. -/
theorem C7_empty_payload_counterexample :
    decode (encode []) = none ∧ decode (encode []) ≠ some [] := by
  constructor
  · decide
  · decide

/-- C7 (amended): for every non-empty payload whose length fits the 8-byte
big-endian length prefix, decoding the encoded frame returns exactly the
payload; the empty payload is the single exception, decoded as `None`. -/
theorem C7_roundtrip_nonempty (payload : List Nat)
    (hlen : payload.length < 256 ^ 8) (hne : payload ≠ []) :
    decode (encode payload) = some payload :=
  decode_encode hlen hne

theorem C7_roundtrip_nonempty_witness :
    decode (encode [104, 105]) = some [104, 105] :=
  C7_roundtrip_nonempty [104, 105] (by decide) (by decide)

/-! ### C6 — wrong secret is rejected silently (confirmed) -/

/-- C6: whenever the first 8 bytes of a new connection differ from the
configured secret, `handle_client` closes the socket at once, writes nothing
back, registers no session, and raises nothing. -/
theorem C6_wrong_secret_rejected (validKey : List Nat) (input : List Nat)
    (echoSamples : List EchoSample) (probeMsgs : List String)
    (h : input.take 8 ≠ validKey) :
    handle_client validKey input echoSamples probeMsgs =
      { sent := [], session := none, closed := true, err := none } := by
  simp only [handle_client]
  rw [if_pos h]

theorem C6_wrong_secret_rejected_witness :
    handle_client valid_key [0, 0, 0, 0, 0, 0, 0, 0] [] [] =
      { sent := [], session := none, closed := true, err := none } :=
  C6_wrong_secret_rejected valid_key [0, 0, 0, 0, 0, 0, 0, 0] [] [] (by decide)

/-! ### C8 — identity frame splitting (corrected) -/

/-- C8 counterexample: the identity frame `"a,b,c"` does not consist of
exactly two comma-separated fields, yet the handshake does not fail — it
registers a session with path `"a"` and uid `"b"` (the code indexes fields 0
and 1 of the full split and never checks the field count). -/
theorem C8_three_fields_counterexample :
    handle_client valid_key (mkHandshakeInput "a,b,c") [⟨0, 0, 1⟩] [] =
      { sent := ["YouAreGoodToGo"], session := some ("a", "b"),
        closed := false, err := none } ∧
    (splitChar ',' "a,b,c").length ≠ 2 := by
  constructor
  · decide
  · decide

/-- C8 (amended): with the valid key and a completed echo exchange, the
handshake fails — no session is created, an exception propagates — iff the
identity frame is empty (`AssertionError`) or contains no comma
(`IndexError` on the second field); any frame with at least two
comma-separated fields yields a session whose path is the first field and
whose uid is the second field, further fields being ignored. -/
theorem C8_handshake_split (msg : String) (s0 : EchoSample)
    (ss : List EchoSample) (probes : List String)
    (hlen : (strToBytes msg).length < 256 ^ 8) :
    (msg = "" →
      handle_client valid_key (mkHandshakeInput msg) (s0 :: ss) probes =
        { sent := [], session := none, closed := false,
          err := some "AssertionError" }) ∧
    (∀ p, msg ≠ "" → splitChar ',' msg = [p] →
      handle_client valid_key (mkHandshakeInput msg) (s0 :: ss) probes =
        { sent := [], session := none, closed := false,
          err := some "IndexError" }) ∧
    (∀ p u rest, splitChar ',' msg = p :: u :: rest →
      handle_client valid_key (mkHandshakeInput msg) (s0 :: ss) probes =
        { sent := probes ++ ["YouAreGoodToGo"], session := some (p, u),
          closed := false, err := none }) := by
  have heval := handle_client_mkHandshakeInput msg (s0 :: ss) probes hlen
  refine ⟨?_, ?_, ?_⟩
  · intro h
    rw [heval, if_pos h]
  · intro p hne hp
    rw [heval, if_neg hne, hp]
  · intro p u rest hp
    have hne : msg ≠ "" := by
      intro h
      rw [h] at hp
      have hsplit : splitChar ',' "" = [""] := rfl
      rw [hsplit] at hp
      cases hp
    rw [heval, if_neg hne, hp]
    rfl

theorem C8_handshake_split_witness :
    handle_client valid_key
        (mkHandshakeInput "/client/keyboardHiker,keyboard-hiker-1")
        [⟨0, 0, 1⟩] [] =
      { sent := ["YouAreGoodToGo"],
        session := some ("/client/keyboardHiker", "keyboard-hiker-1"),
        closed := false, err := none } :=
  (C8_handshake_split "/client/keyboardHiker,keyboard-hiker-1" ⟨0, 0, 1⟩ [] []
    (by decide)).2.2 "/client/keyboardHiker" "keyboard-hiker-1" [] (by decide)

/-! ### C2 — minimum-delay clock sync (corrected) -/

/-- C2 counterexample: on the single echo sample `(t1, t2, t3) = (0, 10, 2)`
(delay 2) the Control center synchronizer `send_echo_packages` — one of the
two implementations the claim covers — sets `netRemoteTime` to `t2 = 10`,
not to `t2 + delay/2 = 11` as the claim states. -/
theorem C2_control_center_counterexample :
    send_echo_packages_quality [⟨0, 10, 2⟩] =
      some { netDelay := 2, netRemoteTime := 10, netLocalTime := 1 } ∧
    send_echo_packages_quality [⟨0, 10, 2⟩] ≠
      some { netDelay := 2, netRemoteTime := 10 + 2 / 2, netLocalTime := 1 } := by
  have h : send_echo_packages_quality [⟨0, 10, 2⟩] =
      some { netDelay := 2, netRemoteTime := 10, netLocalTime := 1 } := by
    simp only [send_echo_packages_quality, minDelaySample, EchoSample.delay]
    norm_num
  refine ⟨h, ?_⟩
  rw [h]
  simp only [ne_eq, Option.some.injEq, ConnectionQuality.mk.injEq]
  intro hcontra
  have := hcontra.2.1
  norm_num at this

/-- C2 (amended): both synchronizers pick a sample of minimum delay
`t3 - t1` and compute the quality only from it: `netDelay = delay_min` and
`netLocalTime = (t1 + t3)/2` in both; the Routine Center broker sets
`netRemoteTime = t2 + delay_min/2`, while the older Control center
implementation sets `netRemoteTime = t2` without the half-delay adjustment. -/
theorem C2_min_delay_selection (s : EchoSample) (rest : List EchoSample) :
    ∃ best, best ∈ s :: rest ∧ (∀ x ∈ s :: rest, best.delay ≤ x.delay) ∧
      estimate_connection_quality (s :: rest) =
        some { netDelay := best.delay,
               netRemoteTime := best.t2 + best.delay / 2,
               netLocalTime := (best.t3 + best.t1) / 2 } ∧
      send_echo_packages_quality (s :: rest) =
        some { netDelay := best.delay, netRemoteTime := best.t2,
               netLocalTime := (best.t3 + best.t1) / 2 } :=
  ⟨minDelaySample s rest, minDelaySample_mem s rest, minDelaySample_le s rest,
    rfl, rfl⟩

/-! ### C1 — routing delivers to exactly the matching sessions (confirmed) -/

/-- C1: the JSON routing branch of `handle_message` forwards a copy of the
letter to exactly the registered sessions that are Connected, whose path
equals the parsed dst path, and whose uid equals the parsed uid filter or
the filter is empty; it is a total function, so zero matches simply deliver
nothing without raising. -/
theorem C1_route_exactly_matching (store : StationStore)
    (clients : List IncomingClient) (sic : IncomingClient)
    (letter : RoutedLetter) (now : ℚ) :
    (handle_json_message store clients sic letter now).2 =
      (clients.filter fun dic =>
        decide (dic.status = ClientStatus.Connected ∧
          dic.path = (parseDst letter.dst).1 ∧
          (dic.uid = (parseDst letter.dst).2 ∨
            (parseDst letter.dst).2 = ""))).map
        (deliverTo
          (StationStore.appendAt store letter.stationsRef ("ControlCenter", now))
          letter sic) := by
  simp only [handle_json_message]
  exact route_loop_eq_filter _ sic letter _ _ clients

/-! ### C5 — station append and copy semantics (corrected) -/

def aSender : IncomingClient :=
  ⟨"A", "/a", "a1", ClientStatus.Connected, 0, 0, 0⟩

def bClient1 : IncomingClient :=
  ⟨"B1", "/b", "b1", ClientStatus.Connected, 0, 0, 0⟩

def bClient2 : IncomingClient :=
  ⟨"B2", "/b", "b2", ClientStatus.Connected, 0, 0, 0⟩

def broadcastLetter : RoutedLetter := ⟨"L1", "/a?a1", "/b?", "hi", 100, 0⟩

/-- C5 counterexample: routing the broadcast letter `dst = "/b?"` to the two
`/b` sessions appends the `(ControlCenter, now)` station to the stations list
of the original parsed letter in place — the original is mutated before any
copy is made, and the two shallow copies then share that single mutated list
instead of receiving independent appends. -/
theorem C5_original_mutated_counterexample :
    (handle_json_message [[("origin", 0)]] [bClient1, bClient2] aSender
        broadcastLetter 5).1.getD 0 [] ≠
      ([[("origin", (0 : ℚ))]] : StationStore).getD 0 [] ∧
    (handle_json_message [[("origin", 0)]] [bClient1, bClient2] aSender
        broadcastLetter 5).1.getD 0 [] =
      [("origin", 0), ("ControlCenter", 5)] ∧
    ((handle_json_message [[("origin", 0)]] [bClient1, bClient2] aSender
        broadcastLetter 5).2.map Delivered.stations) =
      [[("origin", 0), ("ControlCenter", 5)],
       [("origin", 0), ("ControlCenter", 5)]] := by
  refine ⟨by decide, by decide, by decide⟩

/-- C5 (amended): `handle_message` appends the `(ControlCenter, now)` station
once, in place, to the stations list referenced by the parsed letter, before
the delivery loop; every delivered copy is a shallow copy sharing that same
list object, so all copies carry the letter's uid and the same stations
sequence — the old stations plus the single new entry — and no other
stations list in the store is touched. -/
theorem C5_shared_station_append (store : StationStore)
    (clients : List IncomingClient) (sic : IncomingClient)
    (letter : RoutedLetter) (now : ℚ)
    (href : letter.stationsRef < store.length) :
    (handle_json_message store clients sic letter now).1.getD
        letter.stationsRef [] =
      store.getD letter.stationsRef [] ++ [("ControlCenter", now)] ∧
    (∀ r, r ≠ letter.stationsRef →
      (handle_json_message store clients sic letter now).1.getD r [] =
        store.getD r []) ∧
    (∀ d ∈ (handle_json_message store clients sic letter now).2,
      d.uid = letter.uid ∧
      d.stations = store.getD letter.stationsRef [] ++ [("ControlCenter", now)]) := by
  refine ⟨StationStore.appendAt_getD store _ _ href,
    fun r hr => StationStore.appendAt_getD_ne store _ r _ hr, ?_⟩
  intro d hd
  simp only [handle_json_message, route_loop_eq_filter, List.mem_map] at hd
  obtain ⟨dic, hmem, rfl⟩ := hd
  exact ⟨rfl, StationStore.appendAt_getD store _ _ href⟩

theorem C5_shared_station_append_witness :
    (handle_json_message [[("origin", 0)]] [] aSender broadcastLetter 5).1.getD
        0 [] =
      [("origin", (0 : ℚ))] ++ [("ControlCenter", 5)] :=
  (C5_shared_station_append [[("origin", 0)]] [] aSender broadcastLetter 5
    (by decide)).1

/-! ### C3 — fetch_letter atomic pop (confirmed) -/

/-- C3: `fetch_letter` returns exactly what is stored under the uid — the
`None` sentinel when it is absent, without raising — leaving the bag
unchanged in that case; when present it removes the entry while returning
it, so nothing remains under the uid and a second fetch (the two racing
calls serialize under the bag's RLock) returns `None`: the letter is handed
out exactly once. -/
theorem C3_fetch_letter_exactly_once (bag : MyBag) (uid : String) :
    (MyBag.fetch_letter bag uid).1 = alookup bag uid ∧
    (alookup bag uid = none → (MyBag.fetch_letter bag uid).2 = bag) ∧
    alookup (MyBag.fetch_letter bag uid).2 uid = none ∧
    (MyBag.fetch_letter (MyBag.fetch_letter bag uid).2 uid).1 = none := by
  cases h : alookup bag uid with
  | some slot =>
    refine ⟨?_, ?_, ?_, ?_⟩
    · simp only [MyBag.fetch_letter, h]
    · intro hnone
      exact Option.noConfusion hnone
    · simp only [MyBag.fetch_letter, h, alookup_aerase_self]
    · simp only [MyBag.fetch_letter, h, alookup_aerase_self]
  | none =>
    refine ⟨?_, ?_, ?_, ?_⟩
    · simp only [MyBag.fetch_letter, h]
    · intro _
      simp only [MyBag.fetch_letter, h]
    · simp only [MyBag.fetch_letter, h]
    · simp only [MyBag.fetch_letter, h]

theorem C3_fetch_letter_exactly_once_witness :
    (MyBag.fetch_letter ([] : MyBag) "u").2 = [] :=
  (C3_fetch_letter_exactly_once [] "u").2.1 rfl

/-! ### C9 — insert_letter collision handling (confirmed) -/

/-- C9: `insert_letter` stores the letter directly under a fresh uid (at the
end of the bag, preserving dict insertion order); on a collision with a
single stored letter the slot becomes the ordered list `[old, new]`; on a
collision with an existing list the new letter is appended at its end; and
the entry under every other uid is untouched. -/
theorem C9_insert_letter_collision (bag : MyBag) (letter : Letter) :
    (alookup bag letter.uid = none →
      MyBag.insert_letter bag letter =
        bag ++ [(letter.uid, Slot.single letter)]) ∧
    (∀ l, alookup bag letter.uid = some (Slot.single l) →
      alookup (MyBag.insert_letter bag letter) letter.uid =
        some (Slot.multi [l, letter])) ∧
    (∀ ls, alookup bag letter.uid = some (Slot.multi ls) →
      alookup (MyBag.insert_letter bag letter) letter.uid =
        some (Slot.multi (ls ++ [letter]))) ∧
    (∀ k, k ≠ letter.uid →
      alookup (MyBag.insert_letter bag letter) k = alookup bag k) := by
  refine ⟨?_, ?_, ?_, ?_⟩
  · intro h
    simp only [MyBag.insert_letter, h]
  · intro l h
    simp only [MyBag.insert_letter, h]
    exact alookup_aset_self bag letter.uid _ _ h
  · intro ls h
    simp only [MyBag.insert_letter, h]
    exact alookup_aset_self bag letter.uid _ _ h
  · intro k hk
    cases h : alookup bag letter.uid with
    | some slot =>
      cases slot with
      | single l =>
        simp only [MyBag.insert_letter, h]
        exact alookup_aset_ne bag letter.uid k _ hk
      | multi ls =>
        simp only [MyBag.insert_letter, h]
        exact alookup_aset_ne bag letter.uid k _ hk
    | none =>
      simp only [MyBag.insert_letter, h]
      exact alookup_append_single_ne bag letter.uid k _ hk

def wLetterA : Letter := ⟨"u1", "s", "d", "c1", 1, []⟩

def wLetterB : Letter := ⟨"u1", "s", "d", "c2", 2, []⟩

theorem C9_insert_letter_collision_witness :
    MyBag.insert_letter [] wLetterA = [("u1", Slot.single wLetterA)] ∧
    alookup (MyBag.insert_letter [("u1", Slot.single wLetterA)] wLetterB)
        "u1" = some (Slot.multi [wLetterA, wLetterB]) ∧
    alookup (MyBag.insert_letter [("u2", Slot.single wLetterA)] wLetterB)
        "u2" = some (Slot.single wLetterA) :=
  ⟨(C9_insert_letter_collision [] wLetterA).1 rfl,
   (C9_insert_letter_collision [("u1", Slot.single wLetterA)] wLetterB).2.1
     wLetterA rfl,
   (C9_insert_letter_collision [("u2", Slot.single wLetterA)] wLetterB).2.2.2
     "u2" (by decide)⟩

/-! ### C10 — mk_letter timestamp truthiness (confirmed) -/

/-- C10: `mk_letter` honors a supplied timestamp only when it is truthy —
`if not timestamp:` replaces both `None` and `0.0` with the current clock
time, while any nonzero timestamp is stored unchanged. -/
theorem C10_mk_letter_timestamp (st : MailManState)
    (src dst content : String) (now : ℚ) :
    (MailMan.mk_letter st src dst content none now).2.timestamp = now ∧
    (MailMan.mk_letter st src dst content (some 0) now).2.timestamp = now ∧
    (∀ t : ℚ, t ≠ 0 →
      (MailMan.mk_letter st src dst content (some t) now).2.timestamp = t) := by
  refine ⟨rfl, ?_, ?_⟩
  · simp [MailMan.mk_letter]
  · intro t ht
    simp [MailMan.mk_letter, ht]

theorem C10_mk_letter_timestamp_witness :
    (MailMan.mk_letter ⟨"s", 0, [], [], [], []⟩ "a" "b" "c" (some 7) 9).2.timestamp
      = 7 :=
  (C10_mk_letter_timestamp ⟨"s", 0, [], [], [], []⟩ "a" "b" "c" 9).2.2 7
    (by norm_num)

/-! ### C4 — the expiry pipeline (code bug)

The reference workload `keyboard hiker.py` constructs `mm = MailMan(...)`
(line 41) but its expiry pipeline calls `mm.archive_await_letter(letter)`
(line 181) and `mm.mark_expired_letter_with_uid(uid)` (line 186).  `MailMan`
defines neither attribute — they exist only on `MailMan_Deprecated` — so in
the code as written both calls raise `AttributeError` and no letter is ever
inserted into, or expired out of, the awaiting bag.  On the deprecated
mailman the claimed behavior does hold, which shows the claim matches the
intended implementation.
-/

/-- C4: the methods the expiry pipeline invokes are absent from `MailMan`
(the object the workload actually builds) and present only on
`MailMan_Deprecated`; and on the deprecated mailman an awaiting letter is
moved by `mark_expired_letter_with_uid` to the expired bag exactly once —
afterwards it is absent from the awaiting bag and a second expiry attempt
returns `None`. -/
theorem C4_expiry_pipeline (st : MailManDeprecatedState) (uid : String)
    (letter : Letter) (h : alookup st.bag_await_response uid = some letter) :
    (∀ c ∈ keyboardHikerExpiryCalls,
      c ∉ MailMan.attributeNames ∧ c ∈ MailManDeprecated.attributeNames) ∧
    (MailManDeprecated.mark_expired_letter_with_uid st uid).1 = some letter ∧
    alookup (MailManDeprecated.mark_expired_letter_with_uid st uid).2.bag_await_response
        uid = none ∧
    alookup (MailManDeprecated.mark_expired_letter_with_uid st uid).2.bag_expired
        uid = some letter ∧
    (MailManDeprecated.mark_expired_letter_with_uid
        (MailManDeprecated.mark_expired_letter_with_uid st uid).2 uid).1 = none := by
  refine ⟨by decide, ?_, ?_, ?_, ?_⟩
  · simp only [MailManDeprecated.mark_expired_letter_with_uid,
      MailManDeprecated.retrieve_letter_in_waiting, h]
  · simp only [MailManDeprecated.mark_expired_letter_with_uid,
      MailManDeprecated.retrieve_letter_in_waiting, h, alookup_aerase_self]
  · simp only [MailManDeprecated.mark_expired_letter_with_uid,
      MailManDeprecated.retrieve_letter_in_waiting, h]
    exact alookup_asetOrAdd_self _ uid letter
  · simp only [MailManDeprecated.mark_expired_letter_with_uid,
      MailManDeprecated.retrieve_letter_in_waiting, h, alookup_aerase_self]

def wAwaitLetter : Letter := ⟨"u9", "s", "d", "c", 3, []⟩

theorem C4_expiry_pipeline_witness :
    (MailManDeprecated.mark_expired_letter_with_uid
        ⟨[("u9", wAwaitLetter)], [], [], []⟩ "u9").1 = some wAwaitLetter :=
  (C4_expiry_pipeline ⟨[("u9", wAwaitLetter)], [], [], []⟩ "u9" wAwaitLetter
    rfl).2.1

end BCIStation
